import Mathlib

/-!
Shallow embedding of `scripts/temperature-map.js` (GlobalWarmingTrends).

Conventions of the embedding:
* JavaScript numbers are modelled as rationals (`ℚ`); the concrete values the
  claims mention are small integers, exactly representable in float64, so
  rational arithmetic coincides with the program's arithmetic on them.
* A JavaScript value that may be `undefined` (an out-of-range array read, a
  failed object lookup) is an `Option`; arithmetic on a possibly-`undefined`
  value propagates `none`, matching `NaN` propagation in the program.
* JavaScript objects used as string-keyed dictionaries (`allTemperatureData`,
  `baselineData`) are association lists; assignment replaces an existing
  binding in place or appends a fresh one, so `List.lookup` sees the most
  recent write, as the program does.
* The external d3 capabilities used by the core logic are parameters:
  `contains` stands for `d3.geoContains`, `proj` for `projection` (returning
  `none` where the projection is undefined), and `parse` for
  `d3.timeParse("%Y-%m-%d %H:%M:%S")`, each delegated to the d3 library by
  the program.
-/

namespace GlobalWarmingTrends

/-- A raw geographic coordinate `[lon, lat]`. -/
abbrev Coord : Type := ℚ × ℚ

/-- A projected screen position `{x, y}`. -/
abbrev Point : Type := ℚ × ℚ

/-- A string-keyed dictionary of temperature arrays. -/
abbrev TempDict : Type := List (String × List ℚ)

/-- JavaScript addition where either operand may be `undefined`/`NaN`. -/
def jsAdd : Option ℚ → Option ℚ → Option ℚ
  | some a, some b => some (a + b)
  | _, _ => none

/-- JavaScript subtraction where either operand may be `undefined`/`NaN`. -/
def jsSub : Option ℚ → Option ℚ → Option ℚ
  | some a, some b => some (a - b)
  | _, _ => none

/-- JavaScript division of a possibly-`NaN` numerator by a nonzero count. -/
def jsDiv : Option ℚ → ℚ → Option ℚ
  | some a, b => some (a / b)
  | none, _ => none

/-- Indexing `arr[i]` where `arr` itself may be `undefined`. -/
def optIndex : Option (List ℚ) → ℕ → Option ℚ
  | some l, i => l.get? i
  | none, _ => none

/-- Splitting a character list at every `'-'`, as `String.prototype.split('-')`
does (adjacent separators produce empty pieces; the empty string yields one
empty piece). -/
def splitDashChars : List Char → List (List Char)
  | [] => [[]]
  | c :: cs =>
    let rest := splitDashChars cs
    if c = '-' then [] :: rest
    else
      match rest with
      | [] => [[c]]
      | r :: rs => (c :: r) :: rs

/-- `s.split('-')`. (Defined over the character list so that concrete inputs
evaluate; the keys involved are ASCII, where this coincides with the
program's UTF-16 splitting.) -/
def splitDash (s : String) : List String :=
  (splitDashChars s.data).map String.mk

/-- `dateStr.split('-')[1]`: the two-digit month part, when present. -/
def monthOf (s : String) : Option String :=
  (splitDash s).get? 1

/-- Prefix test on character lists. -/
def charPrefixOf : List Char → List Char → Bool
  | [], _ => true
  | _ :: _, [] => false
  | p :: ps, c :: cs => p = c && charPrefixOf ps cs

/-- `s.startsWith(p)` over the character lists (ASCII-faithful). -/
def strStartsWith (s p : String) : Bool :=
  charPrefixOf p.data s.data

/-- The string order used by `Array.prototype.sort()`: lexicographic
comparison of the underlying character sequences. `strLe a b` decides the
library order `a ≤ b` on `String` (see `strLe_iff_le`). -/
def strLe (a b : String) : Bool :=
  !decide (b.data < a.data)

/-- Dictionary assignment `m[k] = v`: replace an existing binding in place,
otherwise append, so `List.lookup` returns the latest write. -/
def assocSet : TempDict → String → List ℚ → TempDict
  | [], k, v => [(k, v)]
  | (k', v') :: rest, k, v =>
    if k' = k then (k, v) :: rest else (k', v') :: assocSet rest k v

/-- Insertion into a lexicographically sorted list of keys. -/
def insertKey (x : String) : List String → List String
  | [] => [x]
  | y :: ys => if strLe x y then x :: y :: ys else y :: insertKey x ys

/-- `Object.keys(allTemperatureData).sort()`: lexicographic sort of the
date keys (valid chronologically because the format is zero-padded). -/
def sortKeys (l : List String) : List String :=
  l.foldr insertKey []

/-- The body of the loader's baseline-extraction `forEach`: if the date key
starts with `"2015"` and has a month part, store that date's temperature
array under the month key (`baselineData[month] = allTemperatureData[dateStr]`). -/
def baselineStep (temps : TempDict) (acc : TempDict) (dateStr : String) : TempDict :=
  if strStartsWith dateStr "2015" then
    match monthOf dateStr, temps.lookup dateStr with
    | some month, some v => assocSet acc month v
    | _, _ => acc
  else acc

/-- `baselineData` built by iterating the sorted time points; a later 2015
date with the same month overwrites an earlier one. (The lookup of
`allTemperatureData[dateStr]` never fails on the loader's input because the
iterated keys are exactly the dictionary's keys.) -/
def buildBaseline (tps : List String) (temps : TempDict) : TempDict :=
  tps.foldl (baselineStep temps) []

/-- The JSON payload inside the zip: `coords` plus the temperature
dictionary (`parsedData.temperatures || parsedData.data`). -/
structure ParsedData where
  coords : List Coord
  temperatures : TempDict

/-- The module-level data state established by `loadTemperatureData`. -/
structure LoadedData where
  rawCoords : List Coord
  screenCoords : List (Option Point)
  allTemperatureData : TempDict
  timePoints : List String
  baselineData : TempDict

/-- `loadTemperatureData` (the pure tail of it, after fetch/unzip/parse):
store raw coords, pre-project screen coords (`null` where the projection is
undefined), sort the date keys, and extract the 2015 baseline. -/
def loadTemperatureData (proj : Coord → Option Point) (pd : ParsedData) : LoadedData :=
  { rawCoords := pd.coords
    screenCoords := pd.coords.map proj
    allTemperatureData := pd.temperatures
    timePoints := sortKeys (pd.temperatures.map Prod.fst)
    baselineData := buildBaseline (sortKeys (pd.temperatures.map Prod.fst)) pd.temperatures }

/-- The point-in-polygon scan of `calculateCountryTrend`: the indices `i`
with `d3.geoContains(feature, rawCoords[i])`. -/
def indicesInCountry {F : Type} (contains : F → Coord → Bool) (feature : F)
    (coords : List Coord) : List ℕ :=
  (coords.enum.filter (fun p => contains feature p.2)).map Prod.fst

/-- One element of a Trend Series: `{ date, val, rawDate }`. `val` is `none`
when the program would compute `NaN`. -/
structure TrendPoint (D : Type) where
  date : Option D
  val : Option ℚ
  rawDate : String

/-- The per-index value inside the aggregation loop: the reading, minus the
baseline reading when anomaly mode is on and a (truthy) baseline array was
found for the month. No `undefined` guard exists here in the program, so a
missing operand propagates (`NaN`, modelled `none`). -/
def trendValAt (mode : Bool) (temps baselineTemps : Option (List ℚ)) (idx : ℕ) : Option ℚ :=
  let val := optIndex temps idx
  if mode && baselineTemps.isSome then jsSub val (optIndex baselineTemps idx) else val

/-- The body of `timePoints.map` inside `calculateCountryTrend`: look up the
date's temperatures and (in anomaly mode) the month's baseline, sum the
per-index values over the contained indices, and average. -/
def trendPointFor {D : Type} (parse : String → Option D) (ld : LoadedData)
    (mode : Bool) (idxs : List ℕ) (dateStr : String) : TrendPoint D :=
  let temps := ld.allTemperatureData.lookup dateStr
  let baselineTemps : Option (List ℚ) :=
    if mode then (monthOf dateStr).bind (fun m => ld.baselineData.lookup m) else none
  let sc := idxs.foldl
    (fun (acc : Option ℚ × ℕ) idx => (jsAdd acc.1 (trendValAt mode temps baselineTemps idx), acc.2 + 1))
    ((some 0 : Option ℚ), (0 : ℕ))
  { date := parse dateStr
    val := if sc.2 > 0 then jsDiv sc.1 (sc.2 : ℚ) else some 0
    rawDate := dateStr }

/-- `calculateCountryTrend`: `null` when no coordinates are loaded or no
coordinate is contained in the feature; otherwise one `TrendPoint` per
sorted date key. `none` models the program's `null` return. -/
def calculateCountryTrend {F D : Type} (contains : F → Coord → Bool)
    (parse : String → Option D) (ld : LoadedData) (mode : Bool) (feature : F) :
    Option (List (TrendPoint D)) :=
  if ld.rawCoords.length = 0 then none
  else
    let idxs := indicesInCountry contains feature ld.rawCoords
    if idxs.length = 0 then none
    else some (ld.timePoints.map (trendPointFor parse ld mode idxs))

/-- One circle of the heatmap: pre-projected screen position and the value
fed to the color scale (`none` models `NaN`). -/
structure RenderPoint where
  x : ℚ
  y : ℚ
  val : Option ℚ

/-- The per-index value assembled inside `renderHeatmap`'s loop: in anomaly
mode with a (truthy) baseline array, subtract the baseline reading when it is
defined and otherwise set the value to `0`; outside anomaly mode (or with no
baseline array for the month) keep the raw reading. -/
def heatmapValAt (mode : Bool) (currentTemps baselineTemps : Option (List ℚ)) (i : ℕ) :
    Option ℚ :=
  let val := optIndex currentTemps i
  if mode && baselineTemps.isSome then
    match optIndex baselineTemps i with
    | some bv => jsSub val (some bv)
    | none => some 0
  else val

/-- One iteration of `renderHeatmap`'s assembly loop at `(i, screenCoords[i])`:
an entry when the screen coordinate is non-`null`, nothing otherwise. -/
def renderEntry (mode : Bool) (currentTemps baselineTemps : Option (List ℚ)) :
    ℕ × Option Point → Option RenderPoint
  | (i, some pt) => some { x := pt.1, y := pt.2, val := heatmapValAt mode currentTemps baselineTemps i }
  | (_, none) => none

/-- The `renderData` assembly loop of `renderHeatmap`: iterate the indexed
screen coordinates, keeping one entry per non-`null` position. -/
def renderHeatmapData (mode : Bool) (screen : List (Option Point))
    (currentTemps baselineTemps : Option (List ℚ)) : List RenderPoint :=
  screen.enum.filterMap (renderEntry mode currentTemps baselineTemps)

/-- The observable state `renderHeatmap` writes: the time display text, the
set of heatmap circles, and the chart-sync index passed to `updateChartsSync`. -/
structure UIState where
  timeDisplay : String
  heatmap : List RenderPoint
  syncIndex : Option ℕ

/-- `renderHeatmap(timeIndex)`: an early `return` leaves the state untouched
when no time points are loaded; otherwise display the current date, assemble
the render data (looking up the month's baseline in anomaly mode) and sync
the charts. `none` models the fault the program runs into when
`timePoints[timeIndex]` is `undefined` on a nonempty axis (member accesses
on `undefined` downstream). -/
def renderHeatmap (ld : LoadedData) (mode : Bool) (timeIndex : ℕ) (ui : UIState) :
    Option UIState :=
  if ld.timePoints.length = 0 then some ui
  else
    match ld.timePoints.get? timeIndex with
    | none => none
    | some currentTime =>
      let currentTemps := ld.allTemperatureData.lookup currentTime
      let baselineTemps : Option (List ℚ) :=
        if mode then (monthOf currentTime).bind (fun m => ld.baselineData.lookup m) else none
      some { timeDisplay := currentTime
             heatmap := renderHeatmapData mode ld.screenCoords currentTemps baselineTemps
             syncIndex := some timeIndex }

/-! ### Playback state (`togglePlay`, slider input, interval ticks) -/

/-- The playback-related module state: the `isPlaying` flag, the number of
live `setInterval` timers, and the slider position and maximum. -/
structure PlayState where
  isPlaying : Bool
  activeTimers : ℕ
  sliderValue : ℕ
  sliderMax : ℕ

/-- `togglePlay`: pause clears the stored interval, play starts one. -/
def togglePlay (s : PlayState) : PlayState :=
  if s.isPlaying then
    { s with isPlaying := false, activeTimers := s.activeTimers - 1 }
  else
    { s with isPlaying := true, activeTimers := s.activeTimers + 1 }

/-- One firing of the playback interval: advance the slider, wrapping past
`slider.max` back to `0`. Fires only while a timer is live. -/
def playTick (s : PlayState) : PlayState :=
  if s.activeTimers = 0 then s
  else
    let nextVal := s.sliderValue + 1
    { s with sliderValue := if nextVal > s.sliderMax then 0 else nextVal }

/-- The slider `input` handler: a drag during playback first pauses, then the
slider holds the dragged value (the range input clamps it to `max`). -/
def sliderInput (s : PlayState) (v : ℕ) : PlayState :=
  let s' := if s.isPlaying then togglePlay s else s
  { s' with sliderValue := min v s'.sliderMax }

/-- The user and timer events that touch playback state. `anomalyToggle`
(`toggleAnomalyMode`) re-renders but never touches the playback fields. -/
inductive PlayEvent where
  | playClick : PlayEvent
  | sliderDrag : ℕ → PlayEvent
  | tick : PlayEvent
  | anomalyToggle : Bool → PlayEvent

/-- Dispatch of one event on the playback state. -/
def playStep (s : PlayState) : PlayEvent → PlayState
  | PlayEvent.playClick => togglePlay s
  | PlayEvent.sliderDrag v => sliderInput s v
  | PlayEvent.tick => playTick s
  | PlayEvent.anomalyToggle _ => s

/-- The playback state right after `setupControls`: paused, no timer,
slider at `0` with maximum `m` (`timePoints.length - 1`). -/
def initPlayState (m : ℕ) : PlayState :=
  { isPlaying := false, activeTimers := 0, sliderValue := 0, sliderMax := m }

/-- Run a sequence of events from the initial playback state. -/
def runPlay (m : ℕ) (evs : List PlayEvent) : PlayState :=
  evs.foldl playStep (initPlayState m)

/-- The playback invariant: the number of live timers is `1` exactly while
playing (`0` otherwise), and the slider stays within its range. -/
def PlayInv (m : ℕ) (s : PlayState) : Prop :=
  s.activeTimers = (if s.isPlaying then 1 else 0)
  ∧ s.sliderValue ≤ s.sliderMax ∧ s.sliderMax = m

/-! ### Anomaly-mode toggling (`toggleAnomalyMode`) -/

/-- The two sequential color scales. -/
inductive ColorScale where
  | absolute : ColorScale
  | anomaly : ColorScale
deriving DecidableEq

/-- One sidebar entry: the stored `featureData` and the chart drawn from the
country's Trend Series. -/
structure SidebarItem (F D : Type) where
  feature : F
  chartData : Option (List (TrendPoint D))

/-- The mode-related application state: the `isAnomalyMode` flag, the active
color scale, and the sidebar items of the revealed countries. -/
structure AppState (F D : Type) where
  isAnomalyMode : Bool
  currentColorScale : ColorScale
  items : List (SidebarItem F D)

/-- `toggleAnomalyMode(enabled)`: set the flag, swap the active color scale,
and recompute every existing sidebar item's Trend Series under the new mode
(the chart and stats are redrawn from this recomputed series). -/
def toggleAnomalyMode {F D : Type} (contains : F → Coord → Bool)
    (parse : String → Option D) (ld : LoadedData) (enabled : Bool)
    (st : AppState F D) : AppState F D :=
  { isAnomalyMode := enabled
    currentColorScale := if enabled then ColorScale.anomaly else ColorScale.absolute
    items := st.items.map (fun it =>
      { it with chartData := calculateCountryTrend contains parse ld enabled it.feature }) }

/-! ### Country selection (`handleClick`, `updateBorderStyle`) -/

/-- The stroke color and width `updateBorderStyle` writes for a country,
as a function of whether it is revealed. -/
def styleFor (isRevealed : Bool) : String × String :=
  if isRevealed then ("#3b82f6", "1.2px") else ("#94a3b8", "0.5px")

/-- The selection-related state: the `revealedCountries` set, the
`country--revealed` class per country path, and the border stroke/width per
country border path. -/
structure SelectionState where
  revealed : Finset String
  revealedClass : String → Bool
  borderStyle : String → String × String

/-- `handleClick` on the country with id `cid`: toggle membership in
`revealedCountries`, set the `country--revealed` class accordingly, then
`updateBorderStyle(cid, revealedCountries.has(cid))`. -/
def handleClick (s : SelectionState) (cid : String) : SelectionState :=
  let s' :=
    if cid ∈ s.revealed then
      { s with revealed := s.revealed.erase cid
               revealedClass := fun c => if c = cid then false else s.revealedClass c }
    else
      { s with revealed := insert cid s.revealed
               revealedClass := fun c => if c = cid then true else s.revealedClass c }
  { s' with borderStyle := fun c =>
      if c = cid then styleFor (decide (cid ∈ s'.revealed)) else s'.borderStyle c }

/-- The arithmetic mean of the readings of `ts` at the indices `idxs` (the
aggregate the spec asserts for absolute mode). -/
def meanAt (ts : List ℚ) (idxs : List ℕ) : ℚ :=
  (idxs.map (fun i => ts.getD i 0)).sum / idxs.length

/-! ### Concrete datasets used by example theorems and witnesses -/

/-- The spec's worked example payload:
`coords = [[0,0],[10,10]]`, `temperatures = {"2015-01-01":[280,290], "2016-01-01":[282,285]}`. -/
def examplePd : ParsedData :=
  { coords := [((0 : ℚ), (0 : ℚ)), ((10 : ℚ), (10 : ℚ))]
    temperatures := [("2015-01-01", [280, 290]), ("2016-01-01", [282, 285])] }

/-- The loaded state for `examplePd` (the projection plays no role in
aggregation; it is taken to be everywhere undefined). -/
def exampleLd : LoadedData := loadTemperatureData (fun _ => none) examplePd

/-- A containment predicate holding only at the first sample point `[0,0]`. -/
def exampleContains : Unit → Coord → Bool := fun _ c => decide (c = ((0 : ℚ), (0 : ℚ)))

/-- A loaded state with no temperature records at all. -/
def emptyLd : LoadedData := loadTemperatureData (fun _ => none) { coords := [], temperatures := [] }

/-- A dataset whose only record lies outside the baseline year, so no
baseline entry exists for its month. -/
def noBaselinePd : ParsedData :=
  { coords := [((0 : ℚ), (0 : ℚ))], temperatures := [("2016-02-01", [300])] }

/-- The loaded state for `noBaselinePd`, with an everywhere-defined projection. -/
def noBaselineLd : LoadedData := loadTemperatureData (fun c => some c) noBaselinePd

/-- A dataset with two baseline-year records in the same month (January
2015), so the later one overwrites the stored baseline for `"01"`. -/
def dupMonthPd : ParsedData :=
  { coords := [((0 : ℚ), (0 : ℚ))]
    temperatures := [("2015-01-01", [280]), ("2015-01-15", [300])] }

/-- The loaded state for `dupMonthPd`. -/
def dupMonthLd : LoadedData := loadTemperatureData (fun _ => none) dupMonthPd

/-- A containment predicate holding everywhere. -/
def allContains : Unit → Coord → Bool := fun _ _ => true

/-- A one-country application state over the worked example, in absolute
mode with a consistent sidebar chart. -/
def exampleApp : AppState Unit Unit :=
  { isAnomalyMode := false
    currentColorScale := ColorScale.absolute
    items := [SidebarItem.mk ()
      (calculateCountryTrend exampleContains (fun _ => none) exampleLd false ())] }

/-- The initial selection state: nothing revealed, default styling. -/
def emptySelection : SelectionState :=
  { revealed := ∅
    revealedClass := fun _ => false
    borderStyle := fun _ => styleFor false }

/-! ### Helper lemmas -/

/-- `strLe` decides the library order on `String`. -/
theorem strLe_iff_le (a b : String) : strLe a b = true ↔ a ≤ b := by
  simp only [strLe, Bool.not_eq_true', decide_eq_false_iff_not]
  exact not_congr (Iff.symm String.lt_iff_toList_lt)

/-- `insertKey` inserts one element, up to permutation. -/
theorem insertKey_perm (x : String) (l : List String) : List.Perm (insertKey x l) (x :: l) := by
  induction l with
  | nil => rfl
  | cons y ys ih =>
    rw [insertKey]
    by_cases h : strLe x y
    · rw [if_pos h]
    · rw [if_neg h]
      exact (ih.cons y).trans (List.Perm.swap x y ys)

/-- `sortKeys` permutes its input. -/
theorem sortKeys_perm (l : List String) : List.Perm (sortKeys l) l := by
  induction l with
  | nil => rfl
  | cons y ys ih => exact (insertKey_perm y (sortKeys ys)).trans (ih.cons y)

/-- `insertKey` preserves sortedness. -/
theorem sorted_insertKey (x : String) (l : List String) (h : l.Sorted (· ≤ ·)) :
    (insertKey x l).Sorted (· ≤ ·) := by
  induction l with
  | nil => simp [insertKey]
  | cons y ys ih =>
    rw [List.sorted_cons] at h
    obtain ⟨hy, hys⟩ := h
    rw [insertKey]
    by_cases hxy : strLe x y
    · rw [if_pos hxy]
      refine List.sorted_cons.mpr ⟨?_, List.sorted_cons.mpr ⟨hy, hys⟩⟩
      intro b hb
      rcases List.mem_cons.mp hb with hb | hb
      · exact hb ▸ (strLe_iff_le x y).mp hxy
      · exact le_trans ((strLe_iff_le x y).mp hxy) (hy b hb)
    · rw [if_neg hxy]
      refine List.sorted_cons.mpr ⟨?_, ih hys⟩
      intro b hb
      rcases List.mem_cons.mp ((insertKey_perm x ys).mem_iff.mp hb) with hb | hb
      · rw [hb]
        have := (strLe_iff_le x y).not.mp hxy
        exact le_of_not_le this
      · exact hy b hb

/-- `sortKeys` sorts. -/
theorem sortKeys_sorted (l : List String) : (sortKeys l).Sorted (· ≤ ·) := by
  induction l with
  | nil => simp [sortKeys]
  | cons y ys ih => exact sorted_insertKey y (sortKeys ys) ih

/-- Membership in the contained-index list, in terms of the coordinate list. -/
theorem mem_indicesInCountry {F : Type} (contains : F → Coord → Bool) (feature : F)
    (coords : List Coord) (i : ℕ) :
    i ∈ indicesInCountry contains feature coords ↔
      ∃ c, coords.get? i = some c ∧ contains feature c = true := by
  unfold indicesInCountry
  constructor
  · intro h
    rcases List.mem_map.mp h with ⟨p, hp, hpi⟩
    rcases List.mem_filter.mp hp with ⟨hpe, hpc⟩
    refine ⟨p.2, ?_, hpc⟩
    have := List.mem_enum_iff_getElem?.mp hpe
    rw [← hpi, List.get?_eq_getElem?]
    exact this
  · rintro ⟨c, hc, hcc⟩
    apply List.mem_map.mpr
    refine ⟨(i, c), List.mem_filter.mpr ⟨?_, hcc⟩, rfl⟩
    apply List.mem_enum_iff_getElem?.mpr
    rw [← List.get?_eq_getElem?]
    exact hc

/-- A contained index is in bounds of the coordinate list. -/
theorem indicesInCountry_lt_length {F : Type} (contains : F → Coord → Bool) (feature : F)
    (coords : List Coord) (i : ℕ) (h : i ∈ indicesInCountry contains feature coords) :
    i < coords.length := by
  rcases (mem_indicesInCountry contains feature coords i).mp h with ⟨c, hc, _⟩
  exact List.get?_eq_some.mp hc |>.1

/-- The contained-index list is empty iff no coordinate is contained. -/
theorem indicesInCountry_eq_nil_iff {F : Type} (contains : F → Coord → Bool) (feature : F)
    (coords : List Coord) :
    indicesInCountry contains feature coords = [] ↔
      ∀ c ∈ coords, contains feature c = false := by
  rw [List.eq_nil_iff_forall_not_mem]
  constructor
  · intro h c hc
    rcases List.get?_of_mem hc with ⟨n, hn⟩
    by_contra hcc
    exact h n ((mem_indicesInCountry contains feature coords n).mpr
      ⟨c, hn, Bool.eq_true_of_ne_false hcc⟩)
  · intro h i hi
    rcases (mem_indicesInCountry contains feature coords i).mp hi with ⟨c, hc, hcc⟩
    have : c ∈ coords := List.get?_mem hc
    rw [h c this] at hcc
    exact Bool.false_ne_true hcc

/-- Evaluation of the sum-and-count fold when every per-index value is
defined. -/
theorem foldl_jsAdd_eval (f : ℕ → Option ℚ) (g : ℕ → ℚ) (idxs : List ℕ)
    (h : ∀ i ∈ idxs, f i = some (g i)) (a : ℚ) (c : ℕ) :
    idxs.foldl (fun (acc : Option ℚ × ℕ) idx => (jsAdd acc.1 (f idx), acc.2 + 1)) (some a, c)
      = (some (a + (idxs.map g).sum), c + idxs.length) := by
  induction idxs generalizing a c with
  | nil => simp
  | cons i is ih =>
    rw [List.foldl_cons]
    have hi : f i = some (g i) := h i (List.mem_cons_self i is)
    rw [show jsAdd (some a) (f i) = some (a + g i) by rw [hi]; rfl]
    rw [ih (fun j hj => h j (List.mem_cons_of_mem i hj)) (a + g i) (c + 1)]
    rw [List.map_cons, List.sum_cons, List.length_cons]
    rw [Prod.mk.injEq]
    constructor
    · rw [add_assoc]
    · omega

/-- Looking up the key just assigned. -/
theorem lookup_cons_same (k : String) (v : List ℚ) (rest : TempDict) :
    List.lookup k ((k, v) :: rest) = some v := by
  simp [List.lookup]

/-- Unfolding `List.lookup` past a non-matching binding. -/
theorem lookup_cons_diff (k k1 : String) (v : List ℚ) (rest : TempDict)
    (h : k1 ≠ k) : List.lookup k ((k1, v) :: rest) = List.lookup k rest := by
  have hb : (k == k1) = false := by
    simpa [beq_iff_eq] using fun hkk => h hkk.symm
  simp [List.lookup, hb]

/-- Looking up the key just assigned. -/
theorem lookup_assocSet_self (m : TempDict) (k : String) (v : List ℚ) :
    (assocSet m k v).lookup k = some v := by
  induction m with
  | nil => simp [assocSet, List.lookup]
  | cons kv rest ih =>
    rw [assocSet]
    by_cases h : kv.1 = k
    · simp [h, List.lookup]
    · simp only [h, if_false]
      rw [lookup_cons_diff k kv.1 kv.2 _ h, ih]

/-- Assignment of one key leaves the other keys' bindings alone. -/
theorem lookup_assocSet_other (m : TempDict) (k k' : String) (v : List ℚ)
    (h : k' ≠ k) : (assocSet m k v).lookup k' = m.lookup k' := by
  induction m with
  | nil =>
    rw [assocSet, lookup_cons_diff k' k v [] (fun hkk => h hkk.symm), List.lookup_nil]
  | cons kv rest ih =>
    rw [assocSet]
    by_cases hk : kv.1 = k
    · rw [if_pos hk]
      rw [lookup_cons_diff k' k v rest (fun hkk => h hkk.symm),
        show (kv :: rest : TempDict) = (kv.1, kv.2) :: rest from rfl,
        lookup_cons_diff k' kv.1 kv.2 rest (fun hkk => h (hk ▸ hkk).symm)]
    · rw [if_neg hk]
      by_cases hk' : kv.1 = k'
      · rw [show (kv :: rest : TempDict) = (kv.1, kv.2) :: rest from rfl, hk',
          lookup_cons_same, lookup_cons_same]
      · rw [show ((kv.1, kv.2) :: assocSet rest k v : TempDict)
              = (kv.1, kv.2) :: assocSet rest k v from rfl,
          lookup_cons_diff k' kv.1 kv.2 _ hk', ih,
          show (kv :: rest : TempDict) = (kv.1, kv.2) :: rest from rfl,
          lookup_cons_diff k' kv.1 kv.2 rest hk']

/-- Once the stored baseline for month `m` is `ts` and every remaining
2015 record of month `m` also carries `ts`, folding the remaining dates
keeps the binding at `ts`. -/
theorem baselineFold_preserves (temps : TempDict) (m : String) (ts : List ℚ) :
    ∀ (l : List String) (acc : TempDict),
      (∀ d ∈ l, strStartsWith d "2015" = true → monthOf d = some m →
        temps.lookup d = some ts) →
      acc.lookup m = some ts →
      (l.foldl (baselineStep temps) acc).lookup m = some ts := by
  intro l
  induction l with
  | nil => intro acc _ hacc; simpa using hacc
  | cons d l ih =>
    intro acc hsame hacc
    rw [List.foldl_cons]
    refine ih _ (fun d' hd' => hsame d' (List.mem_cons_of_mem d hd')) ?_
    rw [baselineStep]
    by_cases h2015 : strStartsWith d "2015" = true
    · rw [if_pos h2015]
      match hmo : monthOf d, hlk : temps.lookup d with
      | some md, some v =>
        by_cases hm : md = m
        · subst hm
          have := hsame d (List.mem_cons_self d l) h2015 hmo
          rw [hlk] at this
          rw [lookup_assocSet_self]
          exact this ▸ rfl
        · rw [lookup_assocSet_other]
          · exact hacc
          · exact fun h => hm h.symm
      | some md, none => exact hacc
      | none, some v => exact hacc
      | none, none => exact hacc
    · rw [if_neg h2015]
      exact hacc

/-- The stored baseline for a month is the series of a 2015 record of that
month, provided every later 2015 record of the same month carries the same
series: the fold writes the record's series when it reaches it, and the
remaining dates preserve the binding. In particular this applies to the last
2015 record of each month, whatever earlier same-month records held. -/
theorem baselineFold_lookup_last (temps : TempDict) (dateStr m : String) (ts : List ℚ)
    (h2015 : strStartsWith dateStr "2015" = true)
    (hm : monthOf dateStr = some m)
    (hts : temps.lookup dateStr = some ts) :
    ∀ (pre post : List String) (acc : TempDict),
      (∀ d ∈ post, strStartsWith d "2015" = true → monthOf d = some m →
        temps.lookup d = some ts) →
      ((pre ++ dateStr :: post).foldl (baselineStep temps) acc).lookup m = some ts := by
  intro pre post acc hafter
  rw [List.foldl_append, List.foldl_cons]
  have hstep : baselineStep temps (pre.foldl (baselineStep temps) acc) dateStr
      = assocSet (pre.foldl (baselineStep temps) acc) m ts := by
    rw [baselineStep, if_pos h2015, hm, hts]
  rw [hstep]
  exact baselineFold_preserves temps m ts post _ hafter
    (lookup_assocSet_self _ m ts)

/-- A key among the dictionary's keys has a binding. -/
theorem lookup_eq_some_of_mem_keys (l : TempDict) (k : String)
    (h : k ∈ l.map Prod.fst) : ∃ v, l.lookup k = some v := by
  induction l with
  | nil => simp at h
  | cons kv rest ih =>
    by_cases hk : kv.1 = k
    · refine ⟨kv.2, ?_⟩
      rw [show (kv :: rest : TempDict) = (kv.1, kv.2) :: rest from rfl, hk, lookup_cons_same]
    · have hmem : k ∈ rest.map Prod.fst := by
        rcases List.mem_map.mp h with ⟨p, hp, hpk⟩
        rcases List.mem_cons.mp hp with hp | hp
        · exact absurd (hp ▸ hpk) hk
        · exact List.mem_map.mpr ⟨p, hp, hpk⟩
      rcases ih hmem with ⟨v, hv⟩
      refine ⟨v, ?_⟩
      rw [show (kv :: rest : TempDict) = (kv.1, kv.2) :: rest from rfl,
        lookup_cons_diff k kv.1 kv.2 rest hk, hv]

/-- A successful lookup produces a binding of the dictionary. -/
theorem mem_of_lookup_eq_some (l : TempDict) (k : String) (v : List ℚ)
    (h : l.lookup k = some v) : (k, v) ∈ l := by
  induction l with
  | nil => simp [List.lookup] at h
  | cons kv rest ih =>
    by_cases hk : kv.1 = k
    · rw [show (kv :: rest : TempDict) = (kv.1, kv.2) :: rest from rfl, hk,
        lookup_cons_same] at h
      have : v = kv.2 := by injection h with h1; exact h1.symm
      subst this
      rw [← hk]
      exact List.mem_cons_self kv rest
    · rw [show (kv :: rest : TempDict) = (kv.1, kv.2) :: rest from rfl,
        lookup_cons_diff k kv.1 kv.2 rest hk] at h
      exact List.mem_cons_of_mem kv (ih h)

/-- In-bounds `get?` returns the `getD` value. -/
theorem get?_eq_some_getD (l : List ℚ) (i : ℕ) (h : i < l.length) :
    l.get? i = some (l.getD i 0) := by
  rw [List.get?_eq_getElem?, List.getD_eq_getElem?_getD, List.getElem?_eq_getElem h]
  rfl

/-- Outside anomaly mode the per-index value is the raw reading. -/
theorem trendValAt_false (temps b : Option (List ℚ)) (i : ℕ) :
    trendValAt false temps b i = optIndex temps i := by
  rw [trendValAt]
  simp

/-- The per-date aggregate in absolute mode: the arithmetic mean of the
readings at the contained indices. -/
theorem trendPointFor_absolute_val {D : Type} (parse : String → Option D) (ld : LoadedData)
    (idxs : List ℕ) (d : String) (ts : List ℚ)
    (hts : ld.allTemperatureData.lookup d = some ts)
    (hb : ∀ i ∈ idxs, i < ts.length)
    (hne : idxs ≠ []) :
    (trendPointFor parse ld false idxs d).val = some (meanAt ts idxs) := by
  simp only [trendPointFor, hts, trendValAt_false]
  have hvals : ∀ i ∈ idxs, optIndex (some ts) i = some (ts.getD i 0) := by
    intro i hi
    exact get?_eq_some_getD ts i (hb i hi)
  rw [foldl_jsAdd_eval (optIndex (some ts)) (fun i => ts.getD i 0) idxs hvals 0 0]
  have hpos : 0 < idxs.length := List.length_pos.mpr hne
  rw [if_pos (by simpa using hpos)]
  rw [jsDiv, meanAt, zero_add, Nat.zero_add]

/-- Unfolding of the per-date aggregate once the two dictionary lookups are
known. -/
theorem trendPointFor_val_eq {D : Type} (parse : String → Option D) (ld : LoadedData)
    (mode : Bool) (idxs : List ℕ) (d : String) (temps bl : Option (List ℚ))
    (h1 : ld.allTemperatureData.lookup d = temps)
    (h2 : (if mode = true then (monthOf d).bind (fun m => ld.baselineData.lookup m)
      else none) = bl) :
    (trendPointFor (D := D) parse ld mode idxs d).val =
      (if (idxs.foldl (fun (acc : Option ℚ × ℕ) idx =>
            (jsAdd acc.1 (trendValAt mode temps bl idx), acc.2 + 1)) (some 0, 0)).2 > 0
       then jsDiv (idxs.foldl (fun (acc : Option ℚ × ℕ) idx =>
            (jsAdd acc.1 (trendValAt mode temps bl idx), acc.2 + 1)) (some 0, 0)).1
         (((idxs.foldl (fun (acc : Option ℚ × ℕ) idx =>
            (jsAdd acc.1 (trendValAt mode temps bl idx), acc.2 + 1)) (some 0, 0)).2 : ℕ) : ℚ)
       else some 0) := by
  subst h1
  subst h2
  rfl

/-- The rendered positions are exactly the non-`null` screen coordinates, in
order, wherever the indexed walk starts. -/
theorem renderFrom_positions (mode : Bool) (temps bl : Option (List ℚ)) :
    ∀ (screen : List (Option Point)) (n : ℕ),
      ((List.enumFrom n screen).filterMap (renderEntry mode temps bl)).map
        (fun r => ((r.x, r.y) : Point)) = screen.reduceOption := by
  intro screen
  induction screen with
  | nil => intro n; rfl
  | cons o s ih =>
    intro n
    cases o with
    | none =>
      rw [List.enumFrom_cons, List.filterMap_cons]
      simp only [renderEntry]
      rw [ih (n + 1), List.reduceOption_cons_of_none]
    | some pt =>
      rw [List.enumFrom_cons, List.filterMap_cons]
      simp only [renderEntry]
      rw [List.map_cons, ih (n + 1), List.reduceOption_cons_of_some]

/-- Every playback event preserves the playback invariant. -/
theorem playStep_preserves (m : ℕ) (s : PlayState) (e : PlayEvent)
    (h : PlayInv m s) : PlayInv m (playStep s e) := by
  obtain ⟨ht, hv, hm⟩ := h
  have htp : PlayInv m (togglePlay s) := by
    rw [togglePlay]
    by_cases hp : s.isPlaying
    · rw [if_pos hp]
      rw [hp] at ht
      refine ⟨?_, hv, hm⟩
      simp [ht]
    · rw [if_neg hp]
      have : s.isPlaying = false := Bool.eq_false_iff.mpr hp
      rw [this] at ht
      refine ⟨?_, hv, hm⟩
      simp [ht]
  cases e with
  | playClick => exact htp
  | sliderDrag v =>
    rw [playStep, sliderInput]
    by_cases hp : s.isPlaying
    · rw [if_pos hp]
      exact ⟨htp.1, min_le_right v _, htp.2.2⟩
    · rw [if_neg hp]
      exact ⟨ht, min_le_right v _, hm⟩
  | tick =>
    rw [playStep, playTick]
    by_cases h0 : s.activeTimers = 0
    · rw [if_pos h0]
      exact ⟨ht, hv, hm⟩
    · rw [if_neg h0]
      refine ⟨ht, ?_, hm⟩
      by_cases hgt : s.sliderValue + 1 > s.sliderMax
      · simp only [hgt, if_pos]
        exact Nat.zero_le _
      · simp only [if_neg hgt]
        omega
  | anomalyToggle b => exact ⟨ht, hv, hm⟩

/-- The invariant holds after any event sequence from any invariant state. -/
theorem playFold_preserves (m : ℕ) :
    ∀ (evs : List PlayEvent) (s : PlayState), PlayInv m s →
      PlayInv m (evs.foldl playStep s) := by
  intro evs
  induction evs with
  | nil => intro s h; exact h
  | cons e t ih =>
    intro s h
    rw [List.foldl_cons]
    exact ih (playStep s e) (playStep_preserves m s e h)

/-! ### Claim theorems -/

/-- C1: for a country boundary with at least one contained sample point, in
absolute mode `calculateCountryTrend` returns exactly one entry per date key
of the loaded temperature mapping (the entries' keys are a permutation of
the mapping's keys), ordered by the lexicographically sorted keys, and each
entry's value is the arithmetic mean of that date's readings at the
contained indices. -/
theorem c1_absolute_mean_per_date {F D : Type} (contains : F → Coord → Bool)
    (parse : String → Option D) (proj : Coord → Option Point) (pd : ParsedData)
    (feature : F)
    (hcont : ∃ c ∈ pd.coords, contains feature c = true)
    (hlen : ∀ kv ∈ pd.temperatures, pd.coords.length ≤ kv.2.length) :
    ∃ series,
      calculateCountryTrend contains parse (loadTemperatureData proj pd) false feature
        = some series
      ∧ series.map (fun t => t.rawDate) = sortKeys (pd.temperatures.map Prod.fst)
      ∧ (series.map (fun t => t.rawDate)).Sorted (· ≤ ·)
      ∧ List.Perm (series.map (fun t => t.rawDate)) (pd.temperatures.map Prod.fst)
      ∧ ∀ t ∈ series, ∃ ts, pd.temperatures.lookup t.rawDate = some ts
          ∧ t.val = some (meanAt ts (indicesInCountry contains feature pd.coords)) := by
  obtain ⟨c, hc, hcc⟩ := hcont
  have hne : ¬ pd.coords.length = 0 := by
    intro h
    rw [List.length_eq_zero.mp h] at hc
    cases hc
  have hidxne : indicesInCountry contains feature pd.coords ≠ [] := by
    intro h
    have := (indicesInCountry_eq_nil_iff contains feature pd.coords).mp h c hc
    rw [hcc] at this
    cases this
  have hidxlen : ¬ (indicesInCountry contains feature pd.coords).length = 0 :=
    fun h => hidxne (List.length_eq_zero.mp h)
  have hmapraw : ∀ (l : List String),
      (l.map (trendPointFor parse (loadTemperatureData proj pd) false
        (indicesInCountry contains feature pd.coords))).map
          (fun t : TrendPoint D => t.rawDate) = l := by
    intro l
    induction l with
    | nil => rfl
    | cons a t ih =>
      rw [List.map_cons, List.map_cons, ih]
      rfl
  refine ⟨(loadTemperatureData proj pd).timePoints.map
    (trendPointFor parse (loadTemperatureData proj pd) false
      (indicesInCountry contains feature pd.coords)), ?_, ?_, ?_, ?_, ?_⟩
  · rw [calculateCountryTrend]
    simp only [loadTemperatureData] at hne hidxlen ⊢
    rw [if_neg hne, if_neg hidxlen]
  · rw [hmapraw]
    rfl
  · rw [hmapraw]
    exact sortKeys_sorted (pd.temperatures.map Prod.fst)
  · rw [hmapraw]
    exact sortKeys_perm (pd.temperatures.map Prod.fst)
  · intro t ht
    rcases List.mem_map.mp ht with ⟨d, hd, hdt⟩
    have hdkeys : d ∈ pd.temperatures.map Prod.fst :=
      (sortKeys_perm (pd.temperatures.map Prod.fst)).subset hd
    rcases lookup_eq_some_of_mem_keys pd.temperatures d hdkeys with ⟨ts, hts⟩
    have htslen : pd.coords.length ≤ ts.length :=
      hlen (d, ts) (mem_of_lookup_eq_some pd.temperatures d ts hts)
    refine ⟨ts, by rw [← hdt]; exact hts, ?_⟩
    rw [← hdt]
    refine trendPointFor_absolute_val parse (loadTemperatureData proj pd)
      (indicesInCountry contains feature pd.coords) d ts hts ?_ hidxne
    intro i hi
    exact lt_of_lt_of_le (indicesInCountry_lt_length contains feature pd.coords i hi) htslen

/-- Witness for C1 at the spec's worked example. -/
theorem c1_absolute_mean_per_date_witness :
    ((∃ c ∈ examplePd.coords, exampleContains () c = true)
      ∧ (∀ kv ∈ examplePd.temperatures, examplePd.coords.length ≤ kv.2.length))
    ∧ ∃ series,
      calculateCountryTrend exampleContains (fun _ => (none : Option Unit))
          (loadTemperatureData (fun _ => none) examplePd) false () = some series
      ∧ series.map (fun t => t.rawDate) = sortKeys (examplePd.temperatures.map Prod.fst)
      ∧ (series.map (fun t => t.rawDate)).Sorted (· ≤ ·)
      ∧ List.Perm (series.map (fun t => t.rawDate)) (examplePd.temperatures.map Prod.fst)
      ∧ ∀ t ∈ series, ∃ ts, examplePd.temperatures.lookup t.rawDate = some ts
          ∧ t.val = some (meanAt ts (indicesInCountry exampleContains () examplePd.coords)) := by
  have h1 : ∃ c ∈ examplePd.coords, exampleContains () c = true := by decide
  have h2 : ∀ kv ∈ examplePd.temperatures, examplePd.coords.length ≤ kv.2.length := by decide
  exact ⟨⟨h1, h2⟩, c1_absolute_mean_per_date exampleContains (fun _ => none)
    (fun _ => none) examplePd () h1 h2⟩

/-- C2 counterexample: with anomaly mode active and no baseline-year record
for the date's month (here month `"02"`, with no 2015 record at all), the
computed per-point value is the raw absolute temperature `300`, not `0`,
both in `calculateCountryTrend` and in `renderHeatmap`'s assembled data. -/
theorem c2_missing_month_counterexample :
    ((calculateCountryTrend (D := Unit) allContains (fun _ => none) noBaselineLd true ()).map
        (fun l => l.map (fun t => (t.rawDate, t.val)))
      = some [("2016-02-01", some 300)])
    ∧ ((renderHeatmap noBaselineLd true 0 ⟨"", [], none⟩).map
        (fun u => u.heatmap.map (fun r => r.val))
      = some [some 300])
    ∧ some (300 : ℚ) ≠ some (0 : ℚ) := by
  refine ⟨?_, ?_, by norm_num⟩
  · simp +decide [calculateCountryTrend, loadTemperatureData, noBaselinePd, allContains,
      indicesInCountry, trendPointFor, trendValAt, jsAdd, jsSub, jsDiv, optIndex, monthOf,
      splitDash, splitDashChars, strStartsWith, charPrefixOf, strLe, insertKey, sortKeys,
      buildBaseline, baselineStep, assocSet, List.lookup, noBaselineLd, List.enum,
      List.enumFrom]
  · simp +decide [renderHeatmap, renderHeatmapData, renderEntry, heatmapValAt,
      loadTemperatureData, noBaselinePd, noBaselineLd, monthOf, splitDash, splitDashChars,
      strStartsWith, charPrefixOf, strLe, insertKey, sortKeys, buildBaseline, baselineStep,
      assocSet, List.lookup, optIndex, jsSub, List.enum, List.enumFrom]

/-- C2 amended: in anomaly mode, a missing per-index baseline entry (with
the month's baseline array present) defaults the per-point value to `0` only
in `renderHeatmap`; when no baseline-year record exists for the date's
month, both `renderHeatmap` and `calculateCountryTrend` skip the subtraction
and use the raw absolute temperature. -/
theorem c2_amended_missing_baseline {D : Type} (parse : String → Option D)
    (ld : LoadedData) (idxs : List ℕ) (dateStr : String)
    (temps : Option (List ℚ)) (bl : List ℚ) (i : ℕ)
    (hmb : (monthOf dateStr).bind (fun m => ld.baselineData.lookup m) = none)
    (hbi : bl.get? i = none) :
    trendPointFor (D := D) parse ld true idxs dateStr
      = trendPointFor parse ld false idxs dateStr
    ∧ heatmapValAt true temps none i = optIndex temps i
    ∧ heatmapValAt true temps (some bl) i = some 0 := by
  refine ⟨?_, ?_, ?_⟩
  · simp only [trendPointFor, if_pos, if_neg, Bool.false_eq_true, if_false, if_true, hmb]
    simp [trendValAt]
  · rw [heatmapValAt]
    simp
  · rw [heatmapValAt]
    have hbi2 : bl[i]? = none := by
      rw [← List.get?_eq_getElem?]
      exact hbi
    simp [optIndex, hbi2]

/-- Witness for the amended C2 at the concrete missing-month dataset. -/
theorem c2_amended_missing_baseline_witness :
    (((monthOf "2016-02-01").bind (fun m => noBaselineLd.baselineData.lookup m) = none)
      ∧ (([] : List ℚ).get? 0 = none))
    ∧ (trendPointFor (D := Unit) (fun _ => none) noBaselineLd true [0] "2016-02-01"
        = trendPointFor (fun _ => none) noBaselineLd false [0] "2016-02-01"
      ∧ heatmapValAt true (some [300]) none 0 = optIndex (some [300]) 0
      ∧ heatmapValAt true (some [300]) (some []) 0 = some 0) := by
  have h1 : (monthOf "2016-02-01").bind (fun m => noBaselineLd.baselineData.lookup m)
      = none := by decide
  have h2 : ([] : List ℚ).get? 0 = none := rfl
  exact ⟨⟨h1, h2⟩, c2_amended_missing_baseline (fun _ => none) noBaselineLd [0]
    "2016-02-01" (some [300]) [] 0 h1 h2⟩

/-- C5 counterexample: with two January-2015 records, the stored baseline
for `"01"` is the later record `[300]`, so the 2015-01-01 anomaly is
`280 - 300 = -20`, not `0`. -/
theorem c5_duplicate_baseline_month_counterexample :
    ((calculateCountryTrend (D := Unit) allContains (fun _ => none) dupMonthLd true ()).map
        (fun l => l.map (fun t => (t.rawDate, t.val)))
      = some [("2015-01-01", some (-20)), ("2015-01-15", some 0)])
    ∧ some ((-20 : ℚ)) ≠ some (0 : ℚ) := by
  refine ⟨?_, by norm_num⟩
  simp +decide [calculateCountryTrend, loadTemperatureData, dupMonthPd, allContains,
    indicesInCountry, trendPointFor, trendValAt, jsAdd, jsSub, jsDiv, optIndex, monthOf,
    splitDash, splitDashChars, strStartsWith, charPrefixOf, strLe, insertKey, sortKeys,
    buildBaseline, baselineStep, assocSet, List.lookup, dupMonthLd, List.enum, List.enumFrom]
  norm_num

/-- C5 amended: with anomaly mode active, a baseline-year (2015) date key
yields anomaly `0` provided every later same-month 2015 record in the sorted
time axis carries the same series — vacuously so for the lexicographically
last 2015 record of each month (later writes are what overwrite the stored
baseline), and for every 2015 date when the baseline year has at most one
record per month. Then every per-point anomaly at a contained index is `0`
and the date's aggregated value is `0` (self-baseline). -/
theorem c5_amended_self_baseline {F D : Type} (contains : F → Coord → Bool)
    (parse : String → Option D) (proj : Coord → Option Point) (pd : ParsedData)
    (feature : F) (dateStr m : String) (ts : List ℚ) (pre post : List String)
    (h2015 : strStartsWith dateStr "2015" = true)
    (hm : monthOf dateStr = some m)
    (hsplit : (loadTemperatureData proj pd).timePoints = pre ++ dateStr :: post)
    (hts : pd.temperatures.lookup dateStr = some ts)
    (hafter : ∀ d ∈ post, strStartsWith d "2015" = true → monthOf d = some m →
      pd.temperatures.lookup d = some ts)
    (hidxb : ∀ i ∈ indicesInCountry contains feature pd.coords, i < ts.length)
    (hidxne : indicesInCountry contains feature pd.coords ≠ []) :
    (∀ i ∈ indicesInCountry contains feature pd.coords,
        trendValAt true (some ts) (some ts) i = some 0)
    ∧ (trendPointFor (D := D) parse (loadTemperatureData proj pd) true
        (indicesInCountry contains feature pd.coords) dateStr).val = some 0 := by
  have hpt : ∀ i ∈ indicesInCountry contains feature pd.coords,
      trendValAt true (some ts) (some ts) i = some 0 := by
    intro i hi
    rw [trendValAt]
    simp only [Option.isSome_some, Bool.and_true, if_true]
    show jsSub (ts.get? i) (ts.get? i) = some 0
    rw [get?_eq_some_getD ts i (hidxb i hi)]
    simp [jsSub, sub_self]
  refine ⟨hpt, ?_⟩
  have hbl : List.lookup m (buildBaseline (sortKeys (pd.temperatures.map Prod.fst))
      pd.temperatures) = some ts := by
    show ((sortKeys (pd.temperatures.map Prod.fst)).foldl
      (baselineStep pd.temperatures) []).lookup m = some ts
    rw [show sortKeys (pd.temperatures.map Prod.fst) = pre ++ dateStr :: post from hsplit]
    exact baselineFold_lookup_last pd.temperatures dateStr m ts h2015 hm hts
      pre post [] hafter
  have h1 : (loadTemperatureData proj pd).allTemperatureData.lookup dateStr = some ts := hts
  have h2 : (if (true : Bool) = true then (monthOf dateStr).bind
      (fun mm => (loadTemperatureData proj pd).baselineData.lookup mm) else none)
        = some ts := by
    show (monthOf dateStr).bind
      (fun mm => (loadTemperatureData proj pd).baselineData.lookup mm) = some ts
    rw [hm]
    exact hbl
  rw [trendPointFor_val_eq parse (loadTemperatureData proj pd) true
    (indicesInCountry contains feature pd.coords) dateStr (some ts) (some ts) h1 h2]
  rw [foldl_jsAdd_eval (trendValAt true (some ts) (some ts)) (fun _ => 0)
    (indicesInCountry contains feature pd.coords) hpt 0 0]
  have hpos : 0 < (indicesInCountry contains feature pd.coords).length :=
    List.length_pos.mpr hidxne
  rw [if_pos (by simpa using hpos)]
  have hsum : ((indicesInCountry contains feature pd.coords).map
      (fun _ => (0 : ℚ))).sum = 0 := by
    simp
  rw [hsum, add_zero, jsDiv, zero_div]

/-- Witness for the amended C5 at the duplicate-January dataset, for the
lexicographically last January-2015 record (whose earlier same-month record
disagrees). -/
theorem c5_amended_self_baseline_witness :
    (strStartsWith "2015-01-15" "2015" = true
      ∧ monthOf "2015-01-15" = some "01"
      ∧ (loadTemperatureData (fun _ => none) dupMonthPd).timePoints
          = ["2015-01-01"] ++ "2015-01-15" :: []
      ∧ dupMonthPd.temperatures.lookup "2015-01-15" = some [300]
      ∧ (∀ d ∈ ([] : List String), strStartsWith d "2015" = true →
          monthOf d = some "01" → dupMonthPd.temperatures.lookup d = some [300])
      ∧ (∀ i ∈ indicesInCountry allContains () dupMonthPd.coords,
          i < ([300] : List ℚ).length)
      ∧ indicesInCountry allContains () dupMonthPd.coords ≠ [])
    ∧ ((∀ i ∈ indicesInCountry allContains () dupMonthPd.coords,
        trendValAt true (some [300]) (some [300]) i = some 0)
      ∧ (trendPointFor (D := Unit) (fun _ => none)
          (loadTemperatureData (fun _ => none) dupMonthPd) true
          (indicesInCountry allContains () dupMonthPd.coords) "2015-01-15").val
        = some 0) := by
  have h1 : strStartsWith "2015-01-15" "2015" = true := by decide
  have h2 : monthOf "2015-01-15" = some "01" := by decide
  have h3 : (loadTemperatureData (fun _ => none) dupMonthPd).timePoints
      = ["2015-01-01"] ++ "2015-01-15" :: [] := by decide
  have h4 : dupMonthPd.temperatures.lookup "2015-01-15" = some [300] := by decide
  have h5 : ∀ d ∈ ([] : List String), strStartsWith d "2015" = true →
      monthOf d = some "01" → dupMonthPd.temperatures.lookup d = some [300] := by
    intro d hd
    cases hd
  have h6 : ∀ i ∈ indicesInCountry allContains () dupMonthPd.coords,
      i < ([300] : List ℚ).length := by decide
  have h7 : indicesInCountry allContains () dupMonthPd.coords ≠ [] := by decide
  exact ⟨⟨h1, h2, h3, h4, h5, h6, h7⟩,
    c5_amended_self_baseline allContains (fun _ => none) (fun _ => none) dupMonthPd ()
      "2015-01-15" "01" [300] ["2015-01-01"] [] h1 h2 h3 h4 h5 h6 h7⟩

/-- C3: `calculateCountryTrend` returns the `null` sentinel iff no dataset is
loaded (empty coordinate list) or zero sample coordinates are contained in
the country boundary; zero matches is a recognized empty result, not an
error (the embedding is a total function). -/
theorem c3_no_data_sentinel_iff {F D : Type} (contains : F → Coord → Bool)
    (parse : String → Option D) (ld : LoadedData) (mode : Bool) (feature : F) :
    calculateCountryTrend contains parse ld mode feature = none ↔
      ld.rawCoords = [] ∨ ∀ c ∈ ld.rawCoords, contains feature c = false := by
  unfold calculateCountryTrend
  rcases Nat.eq_zero_or_pos ld.rawCoords.length with h0 | hpos
  · simp [h0, List.length_eq_zero.mp h0]
  · have hne : ld.rawCoords ≠ [] := by
      intro h; rw [h] at hpos; exact absurd hpos (by simp)
    have hlen : ¬ ld.rawCoords.length = 0 := Nat.pos_iff_ne_zero.mp hpos
    simp only [hlen, if_false, hne, false_or]
    constructor
    · intro h
      by_cases hidx : (indicesInCountry contains feature ld.rawCoords).length = 0
      · have : indicesInCountry contains feature ld.rawCoords = [] :=
          List.length_eq_zero.mp hidx
        unfold indicesInCountry at this
        have hfil : ld.rawCoords.enum.filter (fun p => contains feature p.2) = [] := by
          exact List.map_eq_nil.mp this
        intro c hc
        have : ∀ p ∈ ld.rawCoords.enum, ¬ (contains feature p.2 = true) := by
          simpa using List.filter_eq_nil.mp hfil
        have hc' : c ∈ ld.rawCoords.enum.map Prod.snd := by
          rw [List.enum_map_snd]; exact hc
        rcases List.mem_map.mp hc' with ⟨p, hp, hpc⟩
        have := this p hp
        rw [hpc] at this
        exact eq_false_of_ne_true this
      · simp [hidx] at h
    · intro h
      have hfil : ld.rawCoords.enum.filter (fun p => contains feature p.2) = [] := by
        apply List.filter_eq_nil.mpr
        intro p hp
        have : p.2 ∈ ld.rawCoords := by
          have : p.2 ∈ ld.rawCoords.enum.map Prod.snd := List.mem_map_of_mem Prod.snd hp
          rwa [List.enum_map_snd] at this
        simp [h p.2 this]
      have hidx : indicesInCountry contains feature ld.rawCoords = [] := by
        unfold indicesInCountry; rw [hfil]; rfl
      simp [hidx]

/-- C4: on the spec's worked example, the trend for a country containing only
index 0 is `[(2015-01-01, 280), (2016-01-01, 282)]` in absolute mode, and in
anomaly mode (baseline month `"01" = [280,290]`) the 2016 value is
`282 - 280 = 2` (and the 2015 value is `0`). -/
theorem c4_worked_example :
    ((calculateCountryTrend (D := Unit) exampleContains (fun _ => none) exampleLd false ()).map
        (fun l => l.map (fun t => (t.rawDate, t.val)))
      = some [("2015-01-01", some 280), ("2016-01-01", some 282)])
    ∧ ((calculateCountryTrend (D := Unit) exampleContains (fun _ => none) exampleLd true ()).map
        (fun l => l.map (fun t => (t.rawDate, t.val)))
      = some [("2015-01-01", some 0), ("2016-01-01", some 2)]) := by
  constructor
  · simp +decide [calculateCountryTrend, loadTemperatureData, examplePd, exampleContains,
      indicesInCountry, trendPointFor, trendValAt, jsAdd, jsSub, jsDiv, optIndex, monthOf,
      splitDash, splitDashChars, strStartsWith, charPrefixOf, strLe, insertKey, sortKeys,
      buildBaseline, baselineStep, assocSet, List.lookup, exampleLd, List.enum, List.enumFrom]
  · simp +decide [calculateCountryTrend, loadTemperatureData, examplePd, exampleContains,
      indicesInCountry, trendPointFor, trendValAt, jsAdd, jsSub, jsDiv, optIndex, monthOf,
      splitDash, splitDashChars, strStartsWith, charPrefixOf, strLe, insertKey, sortKeys,
      buildBaseline, baselineStep, assocSet, List.lookup, exampleLd, List.enum, List.enumFrom]
    norm_num

/-- C10: with no time points loaded, `renderHeatmap` is a no-op for every
time index: the input UI state (time display, heatmap, chart-sync index) is
returned unchanged. -/
theorem c10_render_empty_noop (ld : LoadedData) (mode : Bool) (timeIndex : ℕ)
    (ui : UIState) (h : ld.timePoints = []) :
    renderHeatmap ld mode timeIndex ui = some ui := by
  simp [renderHeatmap, h]

/-- Witness for C10 at the concrete empty dataset. -/
theorem c10_render_empty_noop_witness :
    emptyLd.timePoints = [] ∧
      renderHeatmap emptyLd true 3 ⟨"t", [], none⟩ = some ⟨"t", [], none⟩ :=
  ⟨rfl, c10_render_empty_noop emptyLd true 3 ⟨"t", [], none⟩ rfl⟩

/-- C6: when the projection is undefined at coordinate `i`, loading still
produces a screen entry for every coordinate, with `null` at `i`; the
heatmap render data consists exactly of the non-`null` screen positions (so
index `i` contributes nothing); and index `i` is still containment-tested by
the aggregation through the raw coordinates. -/
theorem c6_projection_failure_handling {F : Type} (contains : F → Coord → Bool)
    (proj : Coord → Option Point) (pd : ParsedData) (feature : F) (i : ℕ) (c : Coord)
    (hic : pd.coords.get? i = some c)
    (hproj : proj c = none) :
    (loadTemperatureData proj pd).screenCoords.length = pd.coords.length
    ∧ (loadTemperatureData proj pd).screenCoords.get? i = some none
    ∧ (∀ (mode : Bool) (temps bl : Option (List ℚ)),
        (renderHeatmapData mode (loadTemperatureData proj pd).screenCoords temps bl).map
          (fun r => ((r.x, r.y) : Point))
          = (loadTemperatureData proj pd).screenCoords.reduceOption)
    ∧ (i ∈ indicesInCountry contains feature (loadTemperatureData proj pd).rawCoords
        ↔ contains feature c = true) := by
  refine ⟨?_, ?_, ?_, ?_⟩
  · exact List.length_map pd.coords proj
  · show (pd.coords.map proj).get? i = some none
    rw [List.get?_map, hic]
    simp [hproj]
  · intro mode temps bl
    exact renderFrom_positions mode temps bl (loadTemperatureData proj pd).screenCoords 0
  · show i ∈ indicesInCountry contains feature pd.coords ↔ contains feature c = true
    rw [mem_indicesInCountry]
    constructor
    · rintro ⟨c', hc', hcc'⟩
      rw [hic] at hc'
      injection hc' with h
      exact h ▸ hcc'
    · intro h
      exact ⟨c, hic, h⟩

/-- Witness for C6: a dataset whose first coordinate fails to project. -/
theorem c6_projection_failure_handling_witness :
    (examplePd.coords.get? 0 = some ((0 : ℚ), (0 : ℚ))
      ∧ (fun (_ : Coord) => (none : Option Point)) ((0 : ℚ), (0 : ℚ)) = none)
    ∧ ((loadTemperatureData (fun _ => none) examplePd).screenCoords.length
        = examplePd.coords.length
      ∧ (loadTemperatureData (fun _ => none) examplePd).screenCoords.get? 0 = some none
      ∧ (∀ (mode : Bool) (temps bl : Option (List ℚ)),
          (renderHeatmapData mode (loadTemperatureData (fun _ => none) examplePd).screenCoords
            temps bl).map (fun r => ((r.x, r.y) : Point))
            = (loadTemperatureData (fun _ => none) examplePd).screenCoords.reduceOption)
      ∧ (0 ∈ indicesInCountry exampleContains ()
            (loadTemperatureData (fun _ => none) examplePd).rawCoords
          ↔ exampleContains () ((0 : ℚ), (0 : ℚ)) = true)) := by
  have h1 : examplePd.coords.get? 0 = some ((0 : ℚ), (0 : ℚ)) := by decide
  have h2 : (fun (_ : Coord) => (none : Option Point)) ((0 : ℚ), (0 : ℚ)) = none := rfl
  exact ⟨⟨h1, h2⟩, c6_projection_failure_handling exampleContains (fun _ => none)
    examplePd () 0 ((0 : ℚ), (0 : ℚ)) h1 h2⟩

/-- C7: from a consistent absolute-mode state, toggling anomaly mode on and
then off restores the original color scale, mode flag and every revealed
country's absolute Trend Series; and the on-toggle itself retroactively
recomputes every already-rendered country's series under the new mode. -/
theorem c7_anomaly_toggle_roundtrip {F D : Type} (contains : F → Coord → Bool)
    (parse : String → Option D) (ld : LoadedData) (st : AppState F D)
    (hmode : st.isAnomalyMode = false)
    (hscale : st.currentColorScale = ColorScale.absolute)
    (hitems : ∀ it ∈ st.items,
      it.chartData = calculateCountryTrend contains parse ld false it.feature) :
    toggleAnomalyMode contains parse ld false (toggleAnomalyMode contains parse ld true st)
      = st
    ∧ ∀ it ∈ (toggleAnomalyMode contains parse ld true st).items,
        it.chartData = calculateCountryTrend contains parse ld true it.feature := by
  constructor
  · have hmap : ∀ its : List (SidebarItem F D),
        (∀ it ∈ its, it.chartData = calculateCountryTrend contains parse ld false it.feature) →
        (its.map fun it => SidebarItem.mk it.feature (calculateCountryTrend contains parse ld false it.feature)) = its := by
      intro its h
      induction its with
      | nil => rfl
      | cons a t ih =>
        rw [List.map_cons, ih (fun it hit => h it (List.mem_cons_of_mem a hit))]
        have ha := h a (List.mem_cons_self a t)
        cases a with
        | mk f cd =>
          simp only at ha
          rw [ha]
    cases st with
    | mk m s items =>
      simp only at hmode hscale hitems
      subst hmode
      subst hscale
      rw [toggleAnomalyMode, toggleAnomalyMode]
      simp only [List.map_map]
      rw [show ((fun (it : SidebarItem F D) => ({ it with chartData := calculateCountryTrend contains parse ld false it.feature } : SidebarItem F D)) ∘ (fun (it : SidebarItem F D) => ({ it with chartData := calculateCountryTrend contains parse ld true it.feature } : SidebarItem F D))) = (fun it => SidebarItem.mk it.feature (calculateCountryTrend contains parse ld false it.feature)) from funext (fun it => rfl)]
      rw [hmap items hitems]
      rfl
  · intro it hit
    rcases List.mem_map.mp hit with ⟨a, ha, hae⟩
    rw [← hae]

/-- Witness for C7 at a one-item application state over the worked example. -/
theorem c7_anomaly_toggle_roundtrip_witness :
    (exampleApp.isAnomalyMode = false
      ∧ exampleApp.currentColorScale = ColorScale.absolute
      ∧ ∀ it ∈ exampleApp.items,
          it.chartData = calculateCountryTrend exampleContains (fun _ => none) exampleLd
            false it.feature)
    ∧ (toggleAnomalyMode exampleContains (fun _ => none) exampleLd false
        (toggleAnomalyMode exampleContains (fun _ => none) exampleLd true exampleApp)
          = exampleApp
      ∧ ∀ it ∈ (toggleAnomalyMode exampleContains (fun _ => none) exampleLd true
          exampleApp).items,
          it.chartData = calculateCountryTrend exampleContains (fun _ => none) exampleLd
            true it.feature) := by
  have h1 : exampleApp.isAnomalyMode = false := rfl
  have h2 : exampleApp.currentColorScale = ColorScale.absolute := rfl
  have h3 : ∀ it ∈ exampleApp.items,
      it.chartData = calculateCountryTrend exampleContains (fun _ => none) exampleLd
        false it.feature := by
    intro it hit
    rw [show exampleApp.items = [SidebarItem.mk ()
      (calculateCountryTrend exampleContains (fun _ => none) exampleLd false ())] from rfl,
      List.mem_singleton] at hit
    rw [hit]
  exact ⟨⟨h1, h2, h3⟩, c7_anomaly_toggle_roundtrip exampleContains (fun _ => none)
    exampleLd exampleApp h1 h2 h3⟩

/-- C8: from a state whose class and border styling agree with membership,
clicking a country twice restores the revealed-set, the revealed class and
the border stroke/width exactly; and each single click toggles membership. -/
theorem c8_click_toggles_and_roundtrips (s : SelectionState) (cid : String)
    (hstyle : s.borderStyle cid = styleFor (decide (cid ∈ s.revealed)))
    (hclass : s.revealedClass cid = decide (cid ∈ s.revealed)) :
    handleClick (handleClick s cid) cid = s
    ∧ (cid ∈ (handleClick s cid).revealed ↔ cid ∉ s.revealed) := by
  constructor
  · by_cases hm : cid ∈ s.revealed
    · have hrev : (handleClick s cid).revealed = s.revealed.erase cid := by
        rw [handleClick, if_pos hm]
      have hnot : cid ∉ (handleClick s cid).revealed := by
        rw [hrev]; exact Finset.not_mem_erase cid s.revealed
      cases s with
      | mk rev cls bst =>
        simp only at hm hstyle hclass hnot ⊢
        rw [handleClick, handleClick]
        simp only [if_pos hm]
        rw [if_neg (by simpa using hnot)]
        simp only [SelectionState.mk.injEq]
        refine ⟨Finset.insert_erase hm, funext fun c => ?_, funext fun c => ?_⟩
        · by_cases hc : c = cid
          · subst hc
            simp only [if_pos rfl]
            rw [hclass]
            simp [hm]
          · simp only [if_neg hc]
        · by_cases hc : c = cid
          · subst hc
            simp only [if_pos rfl]
            rw [hstyle]
            refine congrArg styleFor ?_
            rw [decide_eq_decide]
            simp [hm]
          · simp only [if_neg hc]
    · have hrev : (handleClick s cid).revealed = insert cid s.revealed := by
        rw [handleClick, if_neg hm]
      have hin : cid ∈ (handleClick s cid).revealed := by
        rw [hrev]; exact Finset.mem_insert_self cid s.revealed
      cases s with
      | mk rev cls bst =>
        simp only at hm hstyle hclass hin ⊢
        rw [handleClick, handleClick]
        simp only [if_neg hm]
        rw [if_pos (by simpa using hin)]
        simp only [SelectionState.mk.injEq]
        refine ⟨Finset.erase_insert hm, funext fun c => ?_, funext fun c => ?_⟩
        · by_cases hc : c = cid
          · subst hc
            simp only [if_pos rfl]
            rw [hclass]
            simp [hm]
          · simp only [if_neg hc]
        · by_cases hc : c = cid
          · subst hc
            simp only [if_pos rfl]
            rw [hstyle]
            refine congrArg styleFor ?_
            rw [decide_eq_decide]
            simp [hm]
          · simp only [if_neg hc]
  · by_cases hm : cid ∈ s.revealed
    · rw [handleClick, if_pos hm]
      simp [hm, Finset.not_mem_erase]
    · rw [handleClick, if_neg hm]
      simp [hm]

/-- Witness for C8 from the empty consistent state. -/
theorem c8_click_toggles_witness :
    (emptySelection.borderStyle "FRA" = styleFor (decide ("FRA" ∈ emptySelection.revealed))
      ∧ emptySelection.revealedClass "FRA" = decide ("FRA" ∈ emptySelection.revealed))
    ∧ (handleClick (handleClick emptySelection "FRA") "FRA" = emptySelection
      ∧ ("FRA" ∈ (handleClick emptySelection "FRA").revealed
          ↔ "FRA" ∉ emptySelection.revealed)) := by
  have h1 : emptySelection.borderStyle "FRA"
      = styleFor (decide ("FRA" ∈ emptySelection.revealed)) := rfl
  have h2 : emptySelection.revealedClass "FRA"
      = decide ("FRA" ∈ emptySelection.revealed) := rfl
  exact ⟨⟨h1, h2⟩, c8_click_toggles_and_roundtrips emptySelection "FRA" h1 h2⟩

/-- C9: after any sequence of play clicks, slider drags, timer ticks and
anomaly toggles, at most one interval timer is live — exactly one while
playing — and the time index stays within the slider's range; a tick at the
last time point wraps the index back to `0`. -/
theorem c9_single_timer_and_wrap (m : ℕ) (evs : List PlayEvent) :
    (runPlay m evs).activeTimers ≤ 1
    ∧ ((runPlay m evs).isPlaying ↔ (runPlay m evs).activeTimers = 1)
    ∧ (runPlay m evs).sliderValue ≤ m
    ∧ (playTick (PlayState.mk true 1 m m)).sliderValue = 0 := by
  have hinit : PlayInv m (initPlayState m) := by
    refine ⟨rfl, ?_, rfl⟩
    exact Nat.zero_le m
  have hinv : PlayInv m (runPlay m evs) :=
    playFold_preserves m evs (initPlayState m) hinit
  obtain ⟨ht, hv, hm⟩ := hinv
  refine ⟨?_, ?_, le_of_le_of_eq hv hm, ?_⟩
  · rw [ht]
    by_cases hp : (runPlay m evs).isPlaying <;> simp [hp]
  · constructor
    · intro hp
      rw [ht, if_pos hp]
    · intro h1
      by_contra hp
      rw [ht, if_neg hp] at h1
      cases h1
  · rw [playTick]
    simp

end GlobalWarmingTrends
